import Mathlib

/-!
Shallow embedding of `core/trade_simulator.py`: the `Trade` dataclass, the
`TradeSimulator` state and its operations (`run`, `_enter_position`,
`_exit_position`, `_update_positions`) and the metric helpers
(`_calculate_metrics`, `_calculate_max_drawdown`, `_calculate_trade_pnl`,
`_calculate_win_rate`, `_calculate_profit_factor`).  Timestamps are modelled
as naturals, monetary quantities as rationals (exact arithmetic), pandas
frames as a column-name list plus a row list.
-/

namespace Backtest

/-- The `Trade` dataclass: one position's entry terms, sizing, risk levels and
lifecycle fields. -/
structure Trade where
  entry_date : ℕ
  entry_price : ℚ
  shares : ℚ
  position_weight : ℚ
  exit_date : Option ℕ := none
  exit_price : Option ℚ := none
  stop_loss : Option ℚ := none
  target_price : Option ℚ := none
  status : String := "OPEN"
  reason : Option String := none
  position_type : String := "LONG"
deriving DecidableEq

/-- The mutable state owned by `TradeSimulator`. -/
structure TradeSimulator where
  initial_balance : ℚ
  balance : ℚ
  positions : List Trade
  trade_history : List Trade
  commission_rate : ℚ
deriving DecidableEq

/-- `TradeSimulator.__init__`: starting balance, empty open set and history,
commission rate fixed at 0.001. -/
def mkTradeSimulator (initial_balance : ℚ) : TradeSimulator :=
  { initial_balance := initial_balance,
    balance := initial_balance,
    positions := [],
    trade_history := [],
    commission_rate := 1/1000 }

/-- The field updates `_exit_position` performs on the position object before
archiving it. -/
def closeTrade (position : Trade) (exit_price : ℚ) (exit_date : ℕ)
    (reason : String) : Trade :=
  { position with
    exit_date := some exit_date,
    exit_price := some exit_price,
    status := "CLOSED",
    reason := some reason }

/-- `TradeSimulator._exit_position`: no-op unless the position is in the open
set; otherwise credit `shares*exit_price - exit_commission`, append the closed
position to the history and remove it from the open set. -/
def exit_position (s : TradeSimulator) (position : Trade) (exit_price : ℚ)
    (exit_date : ℕ) (reason : String) : TradeSimulator :=
  if position ∈ s.positions then
    { s with
      balance := s.balance + (position.shares * exit_price -
        position.shares * exit_price * s.commission_rate),
      trade_history := s.trade_history ++ [closeTrade position exit_price exit_date reason],
      positions := s.positions.erase position }
  else s

/-- `TradeSimulator._enter_position`: weight-based sizing, commission
re-derivation when `shares*price + commission` exceeds the available balance,
skip when `shares ≤ 0`, otherwise append the position and debit the entry cost
plus commission. -/
def enter_position (s : TradeSimulator) (entry_price : ℚ) (entry_date : ℕ)
    (position_type : String) (position_weight : ℚ)
    (risk_pct reward_pct : ℚ) : TradeSimulator :=
  let available_balance := s.balance * position_weight
  let shares0 := available_balance / entry_price
  let commission0 := shares0 * entry_price * s.commission_rate
  let shares :=
    if available_balance < shares0 * entry_price + commission0 then
      (available_balance / (1 + s.commission_rate)) / entry_price
    else shares0
  let commission := shares * entry_price * s.commission_rate
  if shares ≤ 0 then s
  else
    { s with
      positions := s.positions ++ [{
        entry_date := entry_date,
        entry_price := entry_price,
        shares := shares,
        position_weight := position_weight,
        stop_loss := some (entry_price * (1 - risk_pct)),
        target_price := some (entry_price * (1 + reward_pct)),
        position_type := position_type }],
      balance := s.balance - (shares * entry_price + commission) }

/-- The body of `_update_positions`'s loop for one open position: stop-loss
check first, then target, with direction-aware comparisons and fills at the
stop/target level. -/
def update_position_step (current_price : ℚ) (current_time : ℕ)
    (s : TradeSimulator) (position : Trade) : TradeSimulator :=
  if position.position_type = "LONG" then
    if current_price ≤ position.stop_loss.getD 0 then
      exit_position s position (position.stop_loss.getD 0) current_time "STOP_LOSS"
    else if position.target_price.getD 0 ≤ current_price then
      exit_position s position (position.target_price.getD 0) current_time "TARGET"
    else s
  else
    if position.stop_loss.getD 0 ≤ current_price then
      exit_position s position (position.stop_loss.getD 0) current_time "STOP_LOSS"
    else if current_price ≤ position.target_price.getD 0 then
      exit_position s position (position.target_price.getD 0) current_time "TARGET"
    else s

/-- `TradeSimulator._update_positions`: iterate over a copy of the open set,
checking stops and targets. -/
def update_positions (s : TradeSimulator) (current_price : ℚ)
    (current_time : ℕ) : TradeSimulator :=
  s.positions.foldl (update_position_step current_price current_time) s

/-- `TradeSimulator._calculate_trade_pnl` (the same formula is inlined in the
static metric helpers with the literal rate 0.001): commission-adjusted
realized P&L of a trade. -/
def calculate_trade_pnl (commission_rate : ℚ) (trade : Trade) : ℚ :=
  let exit_px := trade.exit_price.getD 0
  let total_commission :=
    trade.shares * trade.entry_price * commission_rate +
    trade.shares * exit_px * commission_rate
  if trade.position_type = "LONG" then
    (exit_px - trade.entry_price) * trade.shares - total_commission
  else
    (trade.entry_price - exit_px) * trade.shares - total_commission

/-- `TradeSimulator._calculate_win_rate`. -/
def calculate_win_rate (trades : List Trade) : ℚ :=
  if trades = [] then 0
  else ((trades.filter (fun t => 0 < calculate_trade_pnl (1/1000) t)).length : ℚ) /
    (trades.length : ℚ)

/-- Value of `_calculate_profit_factor`: a finite quotient, or `float('inf')`
when the loss sum is not positive. -/
inductive ProfitFactor where
  | fin (val : ℚ)
  | inf
deriving DecidableEq

/-- The loop body of `_calculate_profit_factor`: add a positive P&L to the
gain accumulator, the absolute value of a non-positive P&L to the loss
accumulator. -/
def profit_factor_step (gl : ℚ × ℚ) (t : Trade) : ℚ × ℚ :=
  let pnl := calculate_trade_pnl (1/1000) t
  if 0 < pnl then (gl.1 + pnl, gl.2) else (gl.1, gl.2 + |pnl|)

/-- `TradeSimulator._calculate_profit_factor`: accumulate gains and absolute
losses over the trades, return `gains / losses` when `losses > 0`, else
infinity. -/
def calculate_profit_factor (trades : List Trade) : ProfitFactor :=
  let gl := trades.foldl profit_factor_step ((0 : ℚ), (0 : ℚ))
  if 0 < gl.2 then .fin (gl.1 / gl.2) else .inf

/-- The loop body of `_calculate_max_drawdown` on the running
`(equity, peak, max_drawdown)` state: add the trade's P&L to equity, raise the
peak when exceeded, else record the drawdown `(peak - equity)/peak`. -/
def max_drawdown_step (commission_rate : ℚ) (st : ℚ × ℚ × ℚ) (t : Trade) :
    ℚ × ℚ × ℚ :=
  let equity := st.1 + calculate_trade_pnl commission_rate t
  if st.2.1 < equity then (equity, equity, st.2.2)
  else (equity, st.2.1, max st.2.2 ((st.2.1 - equity) / st.2.1))

/-- `TradeSimulator._calculate_max_drawdown`: replay the trades from
`initial_balance`, tracking `(equity, peak, max_drawdown)`. -/
def calculate_max_drawdown (initial_balance commission_rate : ℚ)
    (trades : List Trade) : ℚ :=
  (trades.foldl (max_drawdown_step commission_rate)
    (initial_balance, initial_balance, (0 : ℚ))).2.2

/-- The metrics dictionary produced by `_calculate_metrics`. -/
structure Metrics where
  initial_balance : ℚ
  final_balance : ℚ
  total_trades : ℕ
  win_rate : ℚ
  profit_factor : ProfitFactor
  max_drawdown : ℚ
deriving DecidableEq

/-- `TradeSimulator._calculate_metrics`: zeroed metrics when there is no
closed trade, otherwise the four statistics over the closed-trade history. -/
def calculate_metrics (s : TradeSimulator) : Metrics :=
  let closed_trades := s.trade_history.filter (fun t => t.status == "CLOSED")
  if closed_trades = [] then
    { initial_balance := s.initial_balance,
      final_balance := s.balance,
      total_trades := 0,
      win_rate := 0,
      profit_factor := .fin 0,
      max_drawdown := 0 }
  else
    { initial_balance := s.initial_balance,
      final_balance := s.balance,
      total_trades := closed_trades.length,
      win_rate := calculate_win_rate closed_trades,
      profit_factor := calculate_profit_factor closed_trades,
      max_drawdown := calculate_max_drawdown s.initial_balance s.commission_rate closed_trades }

/-- One row of the signal feed. -/
structure SignalRow where
  signal : ℚ
  trade_weight : ℚ
deriving DecidableEq

/-- One row of the market-data feed (timestamp index plus OHLCV). -/
structure MarketRow where
  date : ℕ
  open_price : ℚ
  high : ℚ
  low : ℚ
  close : ℚ
  volume : ℚ
deriving DecidableEq

/-- A pandas DataFrame reduced to its column-name list and its rows. -/
structure DataFrame (ρ : Type) where
  columns : List String
  rows : List ρ
deriving DecidableEq

/-- The exceptions `run` can raise: the explicit `ValueError` validations, and
the `IndexError` of `market_data.iloc[-1]` on an empty frame. -/
inductive RunError where
  | valueError (msg : String)
  | indexError
deriving DecidableEq

/-- The dictionary returned by `TradeSimulator.run`. -/
structure RunResult where
  trades : List Trade
  positions : List Trade
  balance : ℚ
  metrics : Metrics
deriving DecidableEq

def required_signal_cols : List String := ["signal", "trade_weight"]

def required_market_cols : List String := ["open", "high", "low", "close", "volume"]

/-- Ordering key of `sorted(self.positions, key=lambda x: x.entry_date)`. -/
def byEntryDate (a b : Trade) : Prop := a.entry_date ≤ b.entry_date

instance : DecidableRel byEntryDate :=
  fun a b => inferInstanceAs (Decidable (a.entry_date ≤ b.entry_date))

instance : IsTotal Trade byEntryDate :=
  ⟨fun a b => Nat.le_total a.entry_date b.entry_date⟩

instance : IsTrans Trade byEntryDate :=
  ⟨fun _ _ _ h₁ h₂ => Nat.le_trans h₁ h₂⟩

/-- `sorted(self.positions, key=lambda x: x.entry_date)` (a stable sort). -/
def sortByEntryDate (l : List Trade) : List Trade :=
  l.insertionSort byEntryDate

/-- The `signal == -1` branch of `run`: close the open positions
oldest-first. -/
def close_signal_positions (s : TradeSimulator) (price : ℚ) (date : ℕ) :
    TradeSimulator :=
  (sortByEntryDate s.positions).foldl
    (fun st p => exit_position st p price date "SIGNAL") s

/-- The body of `run`'s bar loop: update open positions at the close price,
then dispatch the signal. -/
def process_row (s : TradeSimulator) (row : MarketRow × SignalRow) :
    TradeSimulator :=
  let s1 := update_positions s row.1.close row.1.date
  if row.2.signal ≠ 0 ∧ 0 < row.2.trade_weight then
    if row.2.signal = 1 then
      enter_position s1 row.1.close row.1.date "LONG" row.2.trade_weight
        (2/100) (5/100)
    else if row.2.signal = -1 then
      close_signal_positions s1 row.1.close row.1.date
    else s1
  else s1

/-- `run`'s bar loop over the market rows aligned with the signal rows. -/
def run_loop (s : TradeSimulator) (signals : DataFrame SignalRow)
    (market_data : DataFrame MarketRow) : TradeSimulator :=
  (market_data.rows.zip signals.rows).foldl process_row s

/-- The post-loop sweep of `run`: force-close every remaining position at the
final bar's close. -/
def close_remaining (s : TradeSimulator) (final_price : ℚ) (final_date : ℕ) :
    TradeSimulator :=
  s.positions.foldl
    (fun st p => exit_position st p final_price final_date "BACKTEST_END") s

/-- `TradeSimulator.run`: validate the required columns, execute the bar
loop, force-close the remaining positions at the last close, and return the
result dictionary. -/
def run (s : TradeSimulator) (signals : DataFrame SignalRow)
    (market_data : DataFrame MarketRow) : Except RunError RunResult :=
  if !(required_signal_cols.all fun c => signals.columns.contains c) then
    .error (.valueError "Signals DataFrame missing required columns")
  else if !(required_market_cols.all fun c => market_data.columns.contains c) then
    .error (.valueError "Market data DataFrame missing required columns")
  else
    match market_data.rows.getLast? with
    | none => .error .indexError
    | some last =>
      let s2 := close_remaining (run_loop s signals market_data) last.close last.date
      .ok { trades := s2.trade_history,
            positions := s2.positions,
            balance := s2.balance,
            metrics := calculate_metrics s2 }

/-- Row fixtures used to instantiate the run-level theorems. -/
def mkt_row_one : MarketRow :=
  { date := 1, open_price := 100, high := 100, low := 100, close := 100,
    volume := 0 }

/-- An OPEN LONG fixture position. -/
def trade_open_fixture : Trade :=
  { entry_date := 1, entry_price := 100, shares := 1, position_weight := 1 }

/-- A simulator state holding exactly one OPEN position. -/
def sim_one_open : TradeSimulator :=
  { initial_balance := 100, balance := 0, positions := [trade_open_fixture],
    trade_history := [], commission_rate := 1/1000 }

/-- Whether a `run` outcome is one of the explicit `ValueError` validations. -/
def isValueError : Except RunError RunResult → Bool
  | .error (.valueError _) => true
  | _ => false

/-- Whether a `run` outcome raised any exception at all. -/
def run_raised : Except RunError RunResult → Bool
  | .error _ => true
  | .ok _ => false

/-- Modelled from the spec: the signal-feed contract of §4.3/§6 — required
fields present, every signal in {−1, 0, 1} and every trade weight in [0, 1];
the contract is violated when any of these fails.  (Stated from the spec's
words, to compare with what `run` actually validates.) -/
def signal_contract_violated (signals : DataFrame SignalRow) : Prop :=
  ¬ (∀ c ∈ required_signal_cols, signals.columns.contains c = true) ∨
  ∃ row ∈ signals.rows,
    (row.signal ≠ -1 ∧ row.signal ≠ 0 ∧ row.signal ≠ 1) ∨
    row.trade_weight < 0 ∨ 1 < row.trade_weight

/-- A signal frame with all required columns but an out-of-contract signal
value 5. -/
def sig_out_of_range : DataFrame SignalRow :=
  { columns := ["signal", "trade_weight"],
    rows := [{ signal := 5, trade_weight := 1/2 }] }

/-- A well-formed one-bar market frame. -/
def mkt_one : DataFrame MarketRow :=
  { columns := ["open", "high", "low", "close", "volume"],
    rows := [mkt_row_one] }

/-- A closed winning LONG trade. -/
def trade_win_fixture : Trade :=
  { entry_date := 1, entry_price := 10, shares := 1, position_weight := 1,
    exit_date := some 2, exit_price := some 20, status := "CLOSED",
    reason := some "TARGET" }

/-- The drawdown replay step over a bare P&L value (the P&L-list view of
`max_drawdown_step`). -/
def mdd_pnl_step (st : ℚ × ℚ × ℚ) (pnl : ℚ) : ℚ × ℚ × ℚ :=
  let equity := st.1 + pnl
  if st.2.1 < equity then (equity, equity, st.2.2)
  else (equity, st.2.1, max st.2.2 ((st.2.1 - equity) / st.2.1))

/-- Drawdown replay over a P&L sequence. -/
def mdd_from_pnls (initial_balance : ℚ) (pnls : List ℚ) : ℚ :=
  (pnls.foldl mdd_pnl_step (initial_balance, initial_balance, (0 : ℚ))).2.2

/-- A closed LONG trade engineered (entry price 0, one share) so that its
commission-adjusted P&L is exactly `pnl`. -/
def mk_pnl_trade (pnl : ℚ) : Trade :=
  { entry_date := 0, entry_price := 0, shares := 1, position_weight := 1,
    exit_date := some 0, exit_price := some (pnl * 1000 / 999),
    status := "CLOSED" }

/-- A trade history realizing the P&L sequence [+100, −50, +10, −80]. -/
def trades_drawdown_fixture : List Trade :=
  [mk_pnl_trade 100, mk_pnl_trade (-50), mk_pnl_trade 10, mk_pnl_trade (-80)]

/-- One-bar buy-signal frame. -/
def sig_one : DataFrame SignalRow :=
  { columns := ["signal", "trade_weight"],
    rows := [{ signal := 1, trade_weight := 1/2 }] }

/-- Two-bar frames: buy with weight 1/2, then a full-weight sell signal. -/
def sig_two : DataFrame SignalRow :=
  { columns := ["signal", "trade_weight"],
    rows := [{ signal := 1, trade_weight := 1/2 },
             { signal := -1, trade_weight := 1 }] }

def mkt_row_two : MarketRow :=
  { date := 2, open_price := 100, high := 100, low := 100, close := 100,
    volume := 0 }

def mkt_two : DataFrame MarketRow :=
  { columns := ["open", "high", "low", "close", "volume"],
    rows := [mkt_row_one, mkt_row_two] }

/-- Total realized P&L over a trade list. -/
def sum_pnl (commission_rate : ℚ) (trades : List Trade) : ℚ :=
  (trades.map (calculate_trade_pnl commission_rate)).sum

/-- Cash committed by an open position at entry: notional plus entry
commission. -/
def entry_cost (commission_rate : ℚ) (p : Trade) : ℚ :=
  p.shares * p.entry_price * (1 + commission_rate)

/-- Bookkeeping invariant on LONG-only states: cash balance plus the capital
locked in open positions equals the initial balance plus the realized P&L of
the history. -/
def BalanceInv (s : TradeSimulator) : Prop :=
  (∀ p ∈ s.positions, p.position_type = "LONG") ∧
  s.balance + (s.positions.map (entry_cost s.commission_rate)).sum =
    s.initial_balance + sum_pnl s.commission_rate s.trade_history

/-- Run-level invariant: fixed commission rate, fixed initial balance, and
the LONG-only bookkeeping identity. -/
def RunInv (init : ℚ) (s : TradeSimulator) : Prop :=
  s.commission_rate = 1/1000 ∧ s.initial_balance = init ∧ BalanceInv s

/-- The single trade produced by the two-bar fixture run. -/
def trade_two_bar_result : Trade :=
  { entry_date := 1, entry_price := 100, shares := 50000/1001,
    position_weight := 1/2, exit_date := some 2, exit_price := some 100,
    stop_loss := some 98, target_price := some 105, status := "CLOSED",
    reason := some "SIGNAL", position_type := "LONG" }

lemma exit_position_of_mem {s : TradeSimulator} {p : Trade} (px : ℚ) (d : ℕ)
    (r : String) (hp : p ∈ s.positions) :
    exit_position s p px d r =
      { s with
        balance := s.balance + (p.shares * px - p.shares * px * s.commission_rate),
        trade_history := s.trade_history ++ [closeTrade p px d r],
        positions := s.positions.erase p } := by
  simp [exit_position, hp]

lemma exit_position_of_not_mem {s : TradeSimulator} {p : Trade} (px : ℚ) (d : ℕ)
    (r : String) (hp : p ∉ s.positions) :
    exit_position s p px d r = s := by
  simp [exit_position, hp]

lemma foldl_exit_of_perm (px : ℚ) (d : ℕ) (r : String) (l : List Trade) :
    ∀ s : TradeSimulator, l.Perm s.positions →
      l.foldl (fun st p => exit_position st p px d r) s =
        { s with
          balance := s.balance +
            (l.map (fun p => p.shares * px - p.shares * px * s.commission_rate)).sum,
          trade_history := s.trade_history ++ l.map (fun p => closeTrade p px d r),
          positions := [] } := by
  induction l with
  | nil =>
    intro s h
    obtain ⟨ib, b, pos, th, cr⟩ := s
    have h0 : pos = [] := h.symm.eq_nil
    simp [h0]
  | cons p l ih =>
    intro s h
    have hp : p ∈ s.positions := h.mem_iff.mp (List.mem_cons_self p l)
    have hperm : l.Perm (s.positions.erase p) :=
      (h.trans (List.perm_cons_erase hp)).cons_inv
    rw [List.foldl_cons, exit_position_of_mem px d r hp, ih _ hperm]
    simp [List.append_assoc, add_assoc]

lemma close_signal_positions_eq (s : TradeSimulator) (price : ℚ) (d : ℕ) :
    close_signal_positions s price d =
      { s with
        balance := s.balance + ((sortByEntryDate s.positions).map
          (fun p => p.shares * price - p.shares * price * s.commission_rate)).sum,
        trade_history := s.trade_history ++
          (sortByEntryDate s.positions).map (fun p => closeTrade p price d "SIGNAL"),
        positions := [] } :=
  foldl_exit_of_perm price d "SIGNAL" _ s
    (List.perm_insertionSort byEntryDate s.positions)

lemma close_remaining_eq (s : TradeSimulator) (price : ℚ) (d : ℕ) :
    close_remaining s price d =
      { s with
        balance := s.balance + (s.positions.map
          (fun p => p.shares * price - p.shares * price * s.commission_rate)).sum,
        trade_history := s.trade_history ++
          s.positions.map (fun p => closeTrade p price d "BACKTEST_END"),
        positions := [] } :=
  foldl_exit_of_perm price d "BACKTEST_END" _ s (List.Perm.refl _)

/-- Claim C10: dispatching a single bar whose signal is −1 with positive trade
weight closes every currently open position, not only the oldest one: after the
bar is processed the open-position set is empty. -/
theorem C10_signal_closes_every_position (s : TradeSimulator)
    (row : MarketRow × SignalRow) (hsig : row.2.signal = -1)
    (hw : 0 < row.2.trade_weight) :
    (process_row s row).positions = [] := by
  have h1 : row.2.signal ≠ 0 ∧ 0 < row.2.trade_weight := by
    rw [hsig]; exact ⟨by norm_num, hw⟩
  have h2 : ¬ row.2.signal = 1 := by rw [hsig]; norm_num
  simp only [process_row, if_pos h1, if_neg h2, if_pos hsig]
  rw [close_signal_positions_eq]

/-- Concrete instance of C10: one bar with signal −1 and weight 1. -/
theorem C10_witness :
    (process_row (mkTradeSimulator 10000)
      (mkt_row_one, { signal := -1, trade_weight := 1 })).positions = [] :=
  C10_signal_closes_every_position _ _ rfl (by norm_num)

/-- Claim C6: on a −1 signal the open positions are closed oldest-first, with
reason SIGNAL: the trade history grows by exactly the entry-date-sorted open
set, each position marked closed with reason SIGNAL; the closing order is
ascending in entry date and covers the whole open set (a permutation of it),
so in particular the position with the earliest entry date is closed first. -/
theorem C6_fifo_close_order (s : TradeSimulator) (price : ℚ) (d : ℕ) :
    (close_signal_positions s price d).trade_history =
      s.trade_history ++ (sortByEntryDate s.positions).map
        (fun p => closeTrade p price d "SIGNAL") ∧
    (sortByEntryDate s.positions).Sorted byEntryDate ∧
    (sortByEntryDate s.positions).Perm s.positions :=
  ⟨by rw [close_signal_positions_eq],
   List.sorted_insertionSort byEntryDate s.positions,
   List.perm_insertionSort byEntryDate s.positions⟩

/-- Claim C4: exiting a position that is not a member of the open set is a
no-op (state unchanged), and — when the open set holds only OPEN positions, as
the engine maintains — a second exit of an already-exited position (whose
record the first exit marked CLOSED) leaves the state of the first exit
untouched, so balance and history change exactly once. -/
theorem C4_exit_idempotence (s : TradeSimulator) (p : Trade) (px px2 : ℚ)
    (d d2 : ℕ) (r r2 : String)
    (hopen : ∀ q ∈ s.positions, q.status = "OPEN") :
    (p ∉ s.positions → exit_position s p px d r = s) ∧
    exit_position (exit_position s p px d r) (closeTrade p px d r) px2 d2 r2 =
      exit_position s p px d r := by
  constructor
  · intro hp; exact exit_position_of_not_mem px d r hp
  · apply exit_position_of_not_mem
    intro hmem
    have hsub : (exit_position s p px d r).positions ⊆ s.positions := by
      unfold exit_position; split
      · exact List.Sublist.subset (List.erase_sublist _ _)
      · exact fun a ha => ha
    have hst := hopen _ (hsub hmem)
    simp [closeTrade] at hst

/-- Concrete instance of C4: a double exit equals a single exit. -/
theorem C4_witness :
    exit_position (exit_position sim_one_open trade_open_fixture 50 2 "SIGNAL")
        (closeTrade trade_open_fixture 50 2 "SIGNAL") 60 3 "SIGNAL" =
      exit_position sim_one_open trade_open_fixture 50 2 "SIGNAL" :=
  (C4_exit_idempotence sim_one_open trade_open_fixture 50 60 2 3 "SIGNAL" "SIGNAL"
    (by decide)).2

/-- Claim C3: when the update step examines an open position for which both
the stop-loss and the target condition hold simultaneously, exactly one exit
fires, with reason STOP_LOSS and a fill at the stop-loss level rather than the
triggering market price — for LONG, and mirrored for SHORT. -/
theorem C3_stop_loss_precedence (s : TradeSimulator) (p : Trade) (price : ℚ)
    (t : ℕ) (hpos : s.positions = [p]) :
    (p.position_type = "LONG" → price ≤ p.stop_loss.getD 0 →
      p.target_price.getD 0 ≤ price →
      (update_positions s price t).positions = [] ∧
      (update_positions s price t).trade_history =
        s.trade_history ++ [closeTrade p (p.stop_loss.getD 0) t "STOP_LOSS"]) ∧
    (p.position_type ≠ "LONG" → p.stop_loss.getD 0 ≤ price →
      price ≤ p.target_price.getD 0 →
      (update_positions s price t).positions = [] ∧
      (update_positions s price t).trade_history =
        s.trade_history ++ [closeTrade p (p.stop_loss.getD 0) t "STOP_LOSS"]) := by
  have hmem : p ∈ s.positions := by rw [hpos]; exact List.mem_cons_self p []
  constructor
  · intro hl hsl ht
    rw [update_positions, hpos, List.foldl_cons, List.foldl_nil,
        update_position_step, if_pos hl, if_pos hsl,
        exit_position_of_mem _ _ _ hmem]
    exact ⟨by simp [hpos], rfl⟩
  · intro hl hsl ht
    rw [update_positions, hpos, List.foldl_cons, List.foldl_nil,
        update_position_step, if_neg hl, if_pos hsl,
        exit_position_of_mem _ _ _ hmem]
    exact ⟨by simp [hpos], rfl⟩

/-- Concrete instance of C3 (LONG): stop none/target none read as level 0 and
price 0 satisfies both comparisons; the close is a STOP_LOSS at the stop
level. -/
theorem C3_witness :
    (update_positions sim_one_open 0 5).positions = [] ∧
    (update_positions sim_one_open 0 5).trade_history =
      sim_one_open.trade_history ++
        [closeTrade trade_open_fixture (trade_open_fixture.stop_loss.getD 0) 5
          "STOP_LOSS"] :=
  (C3_stop_loss_precedence sim_one_open trade_open_fixture 0 5 rfl).1 rfl
    (by decide) (by decide)

/-- Claim C5 is false as stated: with every required column present but a
signal value outside {−1,0,1}, the spec's signal contract is violated and yet
`run` raises nothing. -/
theorem C5_counterexample :
    signal_contract_violated sig_out_of_range ∧
    run_raised (run (mkTradeSimulator 10000) sig_out_of_range mkt_one) = false := by
  constructor
  · right
    refine ⟨{ signal := 5, trade_weight := 1/2 }, by simp [sig_out_of_range], ?_⟩
    left
    refine ⟨by norm_num, by norm_num, by norm_num⟩
  · norm_num [run, run_loop, process_row, update_positions, close_remaining,
      mkTradeSimulator, sig_out_of_range, mkt_one, mkt_row_one,
      required_signal_cols, required_market_cols, List.getLast?, run_raised]

/-- Claim C5 (amended): `run` raises a ValueError, before processing any bar,
exactly when the signal frame lacks a required column or the market frame
lacks an OHLCV column; the value ranges of `signal` and `trade_weight` are not
validated. -/
theorem C5_validation_iff (s : TradeSimulator) (signals : DataFrame SignalRow)
    (market_data : DataFrame MarketRow) :
    isValueError (run s signals market_data) =
      (!(required_signal_cols.all fun c => signals.columns.contains c) ||
       !(required_market_cols.all fun c => market_data.columns.contains c)) := by
  unfold run
  cases h1 : required_signal_cols.all fun c => signals.columns.contains c with
  | false => simp [h1, isValueError]
  | true =>
    cases h2 : required_market_cols.all fun c => market_data.columns.contains c with
    | false => simp [h1, h2, isValueError]
    | true =>
      cases hl : market_data.rows.getLast? with
      | none => simp [h1, h2, hl, isValueError]
      | some last => simp [h1, h2, hl, isValueError]

/-- The fold of `_calculate_profit_factor` never grows the loss accumulator
when every trade has positive P&L. -/
lemma profit_factor_fold_snd (trades : List Trade)
    (hwin : ∀ t ∈ trades, 0 < calculate_trade_pnl (1/1000) t) :
    ∀ gl : ℚ × ℚ, (trades.foldl profit_factor_step gl).2 = gl.2 := by
  induction trades with
  | nil => intro gl; rfl
  | cons t ts ih =>
    intro gl
    have ht : 0 < calculate_trade_pnl (1/1000) t :=
      hwin t (List.mem_cons_self t ts)
    rw [List.foldl_cons,
      ih (fun u hu => hwin u (List.mem_cons_of_mem t hu)) (profit_factor_step gl t)]
    show (if 0 < calculate_trade_pnl (1/1000) t
        then (gl.1 + calculate_trade_pnl (1/1000) t, gl.2)
        else (gl.1, gl.2 + |calculate_trade_pnl (1/1000) t|)).2 = gl.2
    rw [if_pos ht]

/-- Claim C9: with only winning trades (losses = 0, gains > 0) the profit
factor is +∞; on an empty trade history the metrics report profit factor 0.0
and win rate 0.0 rather than raising a division error. -/
theorem C9_metric_edge_cases (trades : List Trade) (s : TradeSimulator)
    (hne : trades ≠ [])
    (hwin : ∀ t ∈ trades, 0 < calculate_trade_pnl (1/1000) t)
    (hempty : s.trade_history = []) :
    calculate_profit_factor trades = ProfitFactor.inf ∧
    (calculate_metrics s).profit_factor = ProfitFactor.fin 0 ∧
    (calculate_metrics s).win_rate = 0 := by
  refine ⟨?_, ?_, ?_⟩
  · simp only [calculate_profit_factor, profit_factor_fold_snd trades hwin]
    norm_num
  · simp [calculate_metrics, hempty]
  · simp [calculate_metrics, hempty]

/-- Concrete instance of C9: one winning trade and an empty history. -/
theorem C9_witness :
    calculate_profit_factor [trade_win_fixture] = ProfitFactor.inf ∧
    (calculate_metrics (mkTradeSimulator 100)).profit_factor =
      ProfitFactor.fin 0 ∧
    (calculate_metrics (mkTradeSimulator 100)).win_rate = 0 :=
  C9_metric_edge_cases [trade_win_fixture] (mkTradeSimulator 100)
    (List.cons_ne_nil _ _)
    (by norm_num [calculate_trade_pnl, trade_win_fixture]) rfl

/-- `_calculate_max_drawdown` depends on the trades only through their P&L
sequence. -/
lemma calculate_max_drawdown_eq_pnls (initial_balance commission_rate : ℚ)
    (trades : List Trade) :
    calculate_max_drawdown initial_balance commission_rate trades =
      mdd_from_pnls initial_balance
        (trades.map (calculate_trade_pnl commission_rate)) := by
  unfold calculate_max_drawdown mdd_from_pnls
  rw [List.foldl_map]
  rfl

/-- Claim C8's concrete example is false on the code: for a trade history
whose P&L sequence is [+100, −50, +10, −80] over initial balance 1000 the
computed maximum drawdown is 6/55 ≈ 0.1091 (the running peak stays at 1100),
not (1110 − 980)/1110. -/
theorem C8_counterexample :
    trades_drawdown_fixture.map (calculate_trade_pnl (1/1000)) =
      [100, -50, 10, -80] ∧
    calculate_max_drawdown 1000 (1/1000) trades_drawdown_fixture ≠
      (1110 - 980) / 1110 := by
  have hmap : trades_drawdown_fixture.map (calculate_trade_pnl (1/1000)) =
      [100, -50, 10, -80] := by
    norm_num [trades_drawdown_fixture, mk_pnl_trade, calculate_trade_pnl]
  refine ⟨hmap, ?_⟩
  rw [calculate_max_drawdown_eq_pnls, hmap]
  norm_num [mdd_from_pnls, mdd_pnl_step, List.foldl_cons, List.foldl_nil,
    max_def]

/-- Claim C8 (amended): replaying the trades from initial balance 1000 with
running-peak tracking, any trade history whose P&L sequence is
[+100, −50, +10, −80] yields maximum drawdown (1100 − 980)/1100 = 6/55 — the
equity peak never reaches 1110. -/
theorem C8_max_drawdown (trades : List Trade)
    (h : trades.map (calculate_trade_pnl (1/1000)) = [100, -50, 10, -80]) :
    calculate_max_drawdown 1000 (1/1000) trades = (1100 - 980) / 1100 := by
  rw [calculate_max_drawdown_eq_pnls, h]
  norm_num [mdd_from_pnls, mdd_pnl_step, List.foldl_cons, List.foldl_nil,
    max_def]

/-- Concrete instance of the amended C8. -/
theorem C8_witness :
    calculate_max_drawdown 1000 (1/1000) trades_drawdown_fixture =
      (1100 - 980) / 1100 :=
  C8_max_drawdown trades_drawdown_fixture
    (by norm_num [trades_drawdown_fixture, mk_pnl_trade, calculate_trade_pnl])

/-- Claim C2: with positive price, weight in (0,1] and non-negative balance,
the commission re-derivation keeps the entry deduction within
`available = balance * weight`, and the balance after the entry operation (a
skip when the computed shares are ≤ 0, a debit otherwise) stays
non-negative. -/
theorem C2_entry_balance_nonneg (s : TradeSimulator) (entry_price : ℚ)
    (entry_date : ℕ) (position_type : String) (w rp wp : ℚ)
    (hr : s.commission_rate = 1/1000) (hp : 0 < entry_price)
    (hw0 : 0 < w) (hw1 : w ≤ 1) (hb : 0 ≤ s.balance) :
    s.balance -
      (enter_position s entry_price entry_date position_type w rp wp).balance ≤
      s.balance * w ∧
    0 ≤ (enter_position s entry_price entry_date position_type w rp wp).balance := by
  have hpne : entry_price ≠ 0 := ne_of_gt hp
  by_cases hpos : 0 < s.balance * w
  · have haw : s.balance * w ≤ s.balance := mul_le_of_le_one_right hb hw1
    simp only [enter_position, hr]
    rw [div_mul_cancel₀ _ hpne]
    have hcond : s.balance * w < s.balance * w + s.balance * w * (1/1000) :=
      lt_add_of_pos_right _ (mul_pos hpos (by norm_num))
    rw [if_pos hcond]
    have hx : 0 < s.balance * w / (1 + 1/1000) / entry_price :=
      div_pos (div_pos hpos (by norm_num)) hp
    rw [if_neg (not_le.mpr hx)]
    rw [div_mul_cancel₀ _ hpne]
    have hd : s.balance * w / (1 + 1/1000) +
        s.balance * w / (1 + 1/1000) * (1/1000) = s.balance * w := by
      field_simp
      ring
    constructor
    · simp only []
      linarith
    · simp only []
      linarith
  · have h0 : s.balance * w = 0 :=
      le_antisymm (not_lt.mp hpos) (mul_nonneg hb hw0.le)
    have he : enter_position s entry_price entry_date position_type w rp wp = s := by
      simp only [enter_position]
      rw [h0]
      simp
    rw [he, h0]
    exact ⟨by linarith, hb⟩

/-- Concrete instance of C2: entering at price 100 with weight 1/2 from
balance 10000. -/
theorem C2_witness :
    (mkTradeSimulator 10000).balance -
      (enter_position (mkTradeSimulator 10000) 100 1 "LONG" (1/2) (2/100)
        (5/100)).balance ≤
      (mkTradeSimulator 10000).balance * (1/2) ∧
    0 ≤ (enter_position (mkTradeSimulator 10000) 100 1 "LONG" (1/2) (2/100)
      (5/100)).balance :=
  C2_entry_balance_nonneg (mkTradeSimulator 10000) 100 1 "LONG" (1/2) (2/100)
    (5/100) rfl (by norm_num) (by norm_num) (by norm_num)
    (by norm_num [mkTradeSimulator])

lemma calculate_trade_pnl_closeTrade (commission_rate : ℚ) (p : Trade)
    (px : ℚ) (d : ℕ) (r : String) (hl : p.position_type = "LONG") :
    calculate_trade_pnl commission_rate (closeTrade p px d r) =
      (px - p.entry_price) * p.shares -
        (p.shares * p.entry_price * commission_rate +
         p.shares * px * commission_rate) := by
  unfold calculate_trade_pnl closeTrade
  simp [hl]

lemma balanceInv_exit (s : TradeSimulator) (p : Trade) (px : ℚ) (d : ℕ)
    (r : String) (h : BalanceInv s) : BalanceInv (exit_position s p px d r) := by
  obtain ⟨hl, hb⟩ := h
  by_cases hp : p ∈ s.positions
  · rw [exit_position_of_mem px d r hp]
    refine ⟨?_, ?_⟩
    · intro q hq
      exact hl q ((List.erase_sublist p s.positions).subset hq)
    · have hsum : (s.positions.map (entry_cost s.commission_rate)).sum =
          entry_cost s.commission_rate p +
          ((s.positions.erase p).map (entry_cost s.commission_rate)).sum := by
        rw [((List.perm_cons_erase hp).map (entry_cost s.commission_rate)).sum_eq,
          List.map_cons, List.sum_cons]
      dsimp only
      rw [sum_pnl, List.map_append, List.sum_append, List.map_cons,
        List.map_nil, List.sum_cons, List.sum_nil,
        calculate_trade_pnl_closeTrade _ _ _ _ _ (hl p hp)]
      rw [hsum] at hb
      rw [sum_pnl] at hb
      simp only [entry_cost] at hb
      linear_combination hb
  · rw [exit_position_of_not_mem px d r hp]
    exact ⟨hl, hb⟩

lemma balanceInv_enter_aux (s : TradeSimulator) (entry_price : ℚ)
    (entry_date : ℕ) (w rp wp sh : ℚ)
    (hl : ∀ p ∈ s.positions, p.position_type = "LONG")
    (hb : s.balance + (s.positions.map (entry_cost s.commission_rate)).sum =
      s.initial_balance + sum_pnl s.commission_rate s.trade_history) :
    BalanceInv
      { s with
        positions := s.positions ++ [{
          entry_date := entry_date,
          entry_price := entry_price,
          shares := sh,
          position_weight := w,
          stop_loss := some (entry_price * (1 - rp)),
          target_price := some (entry_price * (1 + wp)),
          position_type := "LONG" }],
        balance := s.balance -
          (sh * entry_price + sh * entry_price * s.commission_rate) } := by
  refine ⟨?_, ?_⟩
  · intro q hq
    rcases List.mem_append.mp hq with hq | hq
    · exact hl q hq
    · rw [List.mem_singleton] at hq
      subst hq
      rfl
  · rw [List.map_append, List.sum_append, List.map_cons, List.map_nil,
      List.sum_cons, List.sum_nil]
    simp only [entry_cost]
    linear_combination hb

lemma balanceInv_enter (s : TradeSimulator) (entry_price : ℚ) (entry_date : ℕ)
    (w rp wp : ℚ) (h : BalanceInv s) :
    BalanceInv (enter_position s entry_price entry_date "LONG" w rp wp) := by
  obtain ⟨hl, hb⟩ := h
  simp only [enter_position]
  split <;> split
  · exact ⟨hl, hb⟩
  · exact balanceInv_enter_aux s entry_price entry_date w rp wp _ hl hb
  · exact ⟨hl, hb⟩
  · exact balanceInv_enter_aux s entry_price entry_date w rp wp _ hl hb

lemma runInv_exit (init : ℚ) (s : TradeSimulator) (p : Trade) (px : ℚ)
    (d : ℕ) (r : String) (h : RunInv init s) :
    RunInv init (exit_position s p px d r) := by
  obtain ⟨h1, h2, h3⟩ := h
  refine ⟨?_, ?_, balanceInv_exit s p px d r h3⟩ <;>
    (unfold exit_position; split)
  · exact h1
  · exact h1
  · exact h2
  · exact h2

lemma runInv_enter (init : ℚ) (s : TradeSimulator) (entry_price : ℚ)
    (entry_date : ℕ) (w rp wp : ℚ) (h : RunInv init s) :
    RunInv init (enter_position s entry_price entry_date "LONG" w rp wp) := by
  obtain ⟨h1, h2, h3⟩ := h
  refine ⟨?_, ?_, balanceInv_enter s entry_price entry_date w rp wp h3⟩ <;>
      (simp only [enter_position]; split <;> split) <;>
    first
      | exact h1
      | exact h2

lemma runInv_update_step (init : ℚ) (price : ℚ) (d : ℕ) (s : TradeSimulator)
    (p : Trade) (h : RunInv init s) :
    RunInv init (update_position_step price d s p) := by
  unfold update_position_step
  repeat' split
  all_goals first
    | exact runInv_exit init s p _ d _ h
    | exact h

lemma foldl_inv {α : Type} (P : TradeSimulator → Prop)
    (f : TradeSimulator → α → TradeSimulator)
    (hf : ∀ s a, P s → P (f s a)) :
    ∀ (l : List α) (s : TradeSimulator), P s → P (l.foldl f s) := by
  intro l
  induction l with
  | nil => exact fun s h => h
  | cons a l ih => exact fun s h => ih (f s a) (hf s a h)

lemma runInv_process_row (init : ℚ) (s : TradeSimulator)
    (row : MarketRow × SignalRow) (h : RunInv init s) :
    RunInv init (process_row s row) := by
  have h1 : RunInv init (update_positions s row.1.close row.1.date) :=
    foldl_inv (RunInv init) _
      (fun s p hp => runInv_update_step init _ _ s p hp) _ _ h
  unfold process_row
  repeat' split
  all_goals first
    | exact runInv_enter init _ _ _ _ _ _ h1
    | exact foldl_inv (RunInv init) _
        (fun s p hp => runInv_exit init s p _ _ _ hp) _ _ h1
    | exact h1

lemma runInv_mk (init : ℚ) : RunInv init (mkTradeSimulator init) := by
  refine ⟨rfl, rfl, ?_, ?_⟩
  · intro p hp
    cases hp
  · simp [mkTradeSimulator, sum_pnl]

/-- Claim C1 (amended): for every run from a fresh simulator, every opened
position has been closed by the end (the returned open set is empty) and the
final cash balance is exactly the initial balance plus the sum of the
commission-adjusted realized P&L over the returned trade history: the
entry/exit bookkeeping is asymmetric in form but not in value. -/
theorem C1_balance_reconciliation (init : ℚ) (signals : DataFrame SignalRow)
    (market_data : DataFrame MarketRow)
    (h1 : (required_signal_cols.all fun c => signals.columns.contains c) = true)
    (h2 : (required_market_cols.all fun c => market_data.columns.contains c) = true)
    (last : MarketRow) (hlast : market_data.rows.getLast? = some last) :
    ∃ r, run (mkTradeSimulator init) signals market_data = Except.ok r ∧
      r.positions = [] ∧
      r.balance = init + sum_pnl (1/1000) r.trades := by
  have hinv : RunInv init
      (close_remaining (run_loop (mkTradeSimulator init) signals market_data)
        last.close last.date) := by
    refine foldl_inv (RunInv init) _
      (fun s p hp => runInv_exit init s p _ _ _ hp) _ _ ?_
    exact foldl_inv (RunInv init) _
      (fun s row hrow => runInv_process_row init s row hrow) _ _
      (runInv_mk init)
  obtain ⟨hr, hi, hlong, hbal⟩ := hinv
  have hpos : (close_remaining
      (run_loop (mkTradeSimulator init) signals market_data)
        last.close last.date).positions = [] := by
    rw [close_remaining_eq]
  rw [hpos] at hbal
  rw [List.map_nil, List.sum_nil, add_zero, hr, hi] at hbal
  unfold run
  simp only [h1, h2, hlast, Bool.not_true, Bool.false_eq_true, if_false]
  exact ⟨_, rfl, hpos, hbal⟩

/-- Claim C7: after the bar loop, every position still open is force-closed at
the final bar's closing price with reason BACKTEST_END, and the open-position
set returned by `run` is empty. -/
theorem C7_backtest_end_close (s : TradeSimulator)
    (signals : DataFrame SignalRow) (market_data : DataFrame MarketRow)
    (h1 : (required_signal_cols.all fun c => signals.columns.contains c) = true)
    (h2 : (required_market_cols.all fun c => market_data.columns.contains c) = true)
    (last : MarketRow) (hlast : market_data.rows.getLast? = some last) :
    ∃ r, run s signals market_data = Except.ok r ∧
      r.positions = [] ∧
      r.trades = (run_loop s signals market_data).trade_history ++
        (run_loop s signals market_data).positions.map
          (fun p => closeTrade p last.close last.date "BACKTEST_END") := by
  unfold run
  simp only [h1, h2, hlast, Bool.not_true, Bool.false_eq_true, if_false]
  refine ⟨_, rfl, ?_, ?_⟩
  · rw [close_remaining_eq]
  · rw [close_remaining_eq]

/-- Concrete instance of C7: one bar that opens a position; it is closed at
the final bar's close with reason BACKTEST_END. -/
theorem C7_witness :
    ∃ r, run (mkTradeSimulator 10000) sig_one mkt_one = Except.ok r ∧
      r.positions = [] ∧
      r.trades = (run_loop (mkTradeSimulator 10000) sig_one mkt_one).trade_history ++
        (run_loop (mkTradeSimulator 10000) sig_one mkt_one).positions.map
          (fun p => closeTrade p mkt_row_one.close mkt_row_one.date
            "BACKTEST_END") :=
  C7_backtest_end_close (mkTradeSimulator 10000) sig_one mkt_one rfl rfl
    mkt_row_one rfl

/-- Concrete instance of the amended C1: the two-bar run closes its position
with equality between final balance and initial balance plus realized P&L. -/
theorem C1_witness :
    ∃ r, run (mkTradeSimulator 10000) sig_two mkt_two = Except.ok r ∧
      r.positions = [] ∧
      r.balance = 10000 + sum_pnl (1/1000) r.trades :=
  C1_balance_reconciliation 10000 sig_two mkt_two rfl rfl mkt_row_two rfl

/-- Claim C1 is false as stated: in this concrete two-bar run every opened
position is closed (the returned open set is empty) and the final balance
exactly equals the initial balance plus the summed per-trade realized P&L —
there is no divergence. -/
theorem C1_counterexample :
    run (mkTradeSimulator 10000) sig_two mkt_two =
      Except.ok
        { trades := [trade_two_bar_result],
          positions := [],
          balance := 10000000/1001,
          metrics := {
            initial_balance := 10000,
            final_balance := 10000000/1001,
            total_trades := 1,
            win_rate := 0,
            profit_factor := .fin 0,
            max_drawdown := 1/1001 } } ∧
    (10000000 / 1001 : ℚ) =
      10000 + sum_pnl (1/1000) [trade_two_bar_result] := by
  constructor
  · norm_num [run, run_loop, process_row, update_positions,
      update_position_step, enter_position, exit_position, closeTrade,
      close_signal_positions, sortByEntryDate, close_remaining,
      calculate_metrics, calculate_win_rate, calculate_profit_factor,
      profit_factor_step, calculate_max_drawdown, max_drawdown_step,
      calculate_trade_pnl, mkTradeSimulator, sig_two, mkt_two, mkt_row_one,
      mkt_row_two, required_signal_cols, required_market_cols,
      trade_two_bar_result, List.insertionSort, List.orderedInsert,
      List.getLast?, List.zip, List.zipWith, List.erase_cons, max_def]
  · norm_num [sum_pnl, calculate_trade_pnl, trade_two_bar_result]

end Backtest
